import Mathlib

/-!
Shallow embedding of the Aptos REST state API (`src/api/src/state.rs` and the
wire types under `src/api/types/src/`).

Modelling conventions:
* Machine integers (`u64`) are `Nat`; the one place where wrapping subtraction
  matters (`epoch_number - 2` in `get_epoch_change_proof_payload`) uses an
  explicit `% 2 ^ 64` model (`u64sub`).
* Fallible external collaborators (the storage engine `DbReader`, the Move
  value converter, BCS, cryptographic hashing) are out of scope per the spec
  and are modelled as function-valued fields of `Db` / `Externals`; the code
  under `src/` is translated statement by statement against them.
* Rust `Result<_, BasicErrorWith404>` becomes `Outcome`, which also has a
  `panic` constructor so that `assert_eq!` / `Vec::remove` / `expect` aborts
  are distinguishable from classified error returns.
* BCS serialization of proof payloads (`bcs::to_bytes(&payload).unwrap()`) is
  external; proof-endpoint responses carry the payload structure itself.
* `fail_point_poem` (test-only) and `check_api_output_enabled` (configuration
  glue in the missing `context.rs`) are omitted from the handler wrappers.
-/

/-- Byte sequences (`Vec<u8>` / `Bytes`). -/
abbrev Bytes := List Nat

/-- `HashValue` (opaque 32-byte digest). -/
abbrev HashValue := Nat

/-- Account address / table handle (opaque 32-byte value). -/
abbrev Address := Nat

/-- Opaque decoded Move resource (`MoveResource`), produced by the external converter. -/
abbrev MoveResource := Nat

/-- Opaque parsed module with ABI (`MoveModuleBytecode` after `try_parse_abi`). -/
abbrev MoveModuleBytecode := Nat

/-- Opaque decoded Move value (`MoveValue`). -/
abbrev MoveValue := Nat

/-- Opaque VM-internal value (`move_core_types` annotated value before `undecorate`). -/
abbrev VmValue := Nat

/-- Opaque JSON value used as a table key in requests. -/
abbrev JsonValue := Nat

/-- Opaque wire representation of a Move type (`MoveType` before `try_into`). -/
abbrev MoveTypeWire := Nat

/-- Opaque parsed Move type (`move_core_types::TypeTag`). -/
abbrev MoveType := Nat

/-- Wire representation of a struct tag (`aptos_api_types::MoveStructTag`), unparsed. -/
abbrev MoveStructTag := String

/-- Parsed `move_core_types::language_storage::StructTag`. -/
structure StructTag where
  address : Address
  moduleName : String
  name : String
deriving DecidableEq

/-- `aptos_types::validator_verifier::ValidatorVerifier`, opaque list of validator infos. -/
abbrev ValidatorVerifier := List Nat

/-- `aptos_types::epoch_state::EpochState`. -/
structure EpochState where
  epoch : Nat
  verifier : ValidatorVerifier
deriving DecidableEq

/-- `aptos_types::ledger_info::LedgerInfo` (commit info essentials used by `state.rs`). -/
structure LedgerInfoData where
  epoch : Nat
  version : Nat
  timestampUsecs : Nat
  nextEpochState : Option EpochState
deriving DecidableEq

/-- `aptos_types::ledger_info::LedgerInfoWithSignatures` (signatures opaque). -/
structure LedgerInfoWithSignatures where
  ledger_info : LedgerInfoData
  signatures : Nat
deriving DecidableEq

/-- `aptos_types::epoch_change::EpochChangeProof`: signed epoch-ending checkpoints plus
a `more` truncation flag. -/
structure EpochChangeProof where
  ledger_info_with_sigs : List LedgerInfoWithSignatures
  more : Bool
deriving DecidableEq

/-- `aptos_types::waypoint::Waypoint`: a version plus a digest of the ledger info. -/
structure Waypoint where
  version : Nat
  value : HashValue
deriving DecidableEq

/-- `Waypoint::new_any(ledger_info)`: waypoint at the ledger info's version whose value is
the (externally supplied) hash of the ledger info. -/
def Waypoint.new_any (hashLI : LedgerInfoData → HashValue) (li : LedgerInfoData) : Waypoint :=
  { version := li.version, value := hashLI li }

/-- `aptos_types::trusted_state::TrustedState`. -/
inductive TrustedState where
  | epochWaypoint (waypoint : Waypoint)
  | epochState (waypoint : Waypoint) (epoch_state : EpochState)
deriving DecidableEq

/-- `aptos_types::proof::SparseMerkleProof`: optional leaf (key hash, value hash) plus siblings. -/
structure SparseMerkleProof where
  leaf : Option (HashValue × HashValue)
  siblings : List HashValue
deriving DecidableEq

/-- `aptos_types::proof::TransactionAccumulatorProof`. -/
structure TransactionAccumulatorProof where
  siblings : List HashValue
deriving DecidableEq

/-- `aptos_types::transaction::TransactionInfo` (state root, event root, gas used). -/
structure TransactionInfo where
  stateChangeHash : HashValue
  eventRootHash : HashValue
  gasUsed : Nat
deriving DecidableEq

/-- The `proof` field of `TransactionWithProof`: accumulator proof plus transaction info. -/
structure TransactionInfoWithProof where
  ledger_info_to_transaction_info_proof : TransactionAccumulatorProof
  transaction_info : TransactionInfo
deriving DecidableEq

/-- `aptos_types::transaction::TransactionWithProof` (only the `proof` field is used). -/
structure TransactionWithProof where
  proof : TransactionInfoWithProof
deriving DecidableEq

/-- `aptos_api_types::LedgerInfo` (`src/api/types/src/ledger_info.rs`): the resolved
ledger snapshot metadata attached to every response. -/
structure LedgerInfo where
  chain_id : Nat
  epoch : Nat
  ledger_version : Nat
  oldest_ledger_version : Nat
  block_height : Nat
  oldest_block_height : Nat
  ledger_timestamp : Nat
deriving DecidableEq

/-- `StateKey` tagged union (account resource / module / table item / raw). -/
inductive StateKey where
  | resourceKey (address : Address) (tag : StructTag)
  | moduleKey (address : Address) (name : String)
  | tableItemKey (handle : Address) (rawKey : Bytes)
  | raw (keyBytes : Bytes)
deriving DecidableEq

/-- `StateValue`: opaque on-ledger byte sequence (its content hash is computed externally). -/
abbrev StateValue := Bytes

/-- Block record returned by `Context::get_block_by_height` (only `last_version` is used). -/
structure BcsBlock where
  last_version : Nat
deriving DecidableEq

/-- Classified failure outcomes (`BasicErrorWith404` constructors used by `state.rs`;
the constructors from the missing `response.rs` are modelled from the spec's error
taxonomy, §7). Not-found constructors carry the key context, the resolved version
and the ledger snapshot, as `resource_not_found` / `module_not_found` /
`table_item_not_found` / `build_not_found` do. -/
inductive ApiError where
  | badRequest (msg : String)
  | gone
  | resourceNotFound (address : Address) (tag : StructTag) (version : Nat) (li : LedgerInfo)
  | moduleNotFound (address : Address) (name : String) (version : Nat) (li : LedgerInfo)
  | tableItemNotFound (handle : Address) (key : JsonValue) (version : Nat) (li : LedgerInfo)
  | rawNotFound (kind : String) (detail : String) (li : LedgerInfo)
  | forbidden (operation : String) (msg : String)
  | internal (msg : String)
deriving DecidableEq

/-- Result of one endpoint invocation: an ok value, a classified error, or a process
abort (Rust panic, from `assert_eq!` / `expect` / `Vec::remove` out of bounds). -/
inductive Outcome (α : Type) where
  | ok (value : α)
  | err (e : ApiError)
  | panic (msg : String)
deriving DecidableEq

/-- Negotiated response format (`AcceptType`). -/
inductive AcceptType where
  | json
  | bcs
deriving DecidableEq

/-- A successful basic response: either a decoded (JSON) value or raw BCS bytes,
always carrying the resolved ledger snapshot (`BasicResponse::try_from_json` /
`try_from_encoded`). -/
inductive BasicResponse (α : Type) where
  | json (value : α) (ledgerInfo : LedgerInfo)
  | bcs (bytes : Bytes) (ledgerInfo : LedgerInfo)
deriving DecidableEq

/-- A successful proof-endpoint response: the payload (whose BCS serialization by
the external `bcs` crate is what goes on the wire) plus the ledger snapshot. -/
inductive ProofResponse (π : Type) where
  | bcsPayload (payload : π) (ledgerInfo : LedgerInfo)
deriving DecidableEq

/-- The external versioned ledger store (`DbReader` plus the two `Context` lookups
that only delegate to it), as function-valued fields. Each fallible call returns
`Except String` mirroring `anyhow::Result`. -/
structure Db where
  latestLedgerInfoWithSigs : Except String LedgerInfoWithSignatures
  latestEpochState : Except String EpochState
  epochEndingLedgerInfos : Nat → Nat → Except String EpochChangeProof
  stateValueBytes : StateKey → Nat → Except String (Option Bytes)
  stateValue : StateKey → Nat → Except String (Option StateValue)
  stateValueWithProofByVersion : StateKey → Nat → Except String (Option StateValue × SparseMerkleProof)
  transactionByVersion : Nat → Nat → Bool → Except String TransactionWithProof
  blockByHeight : Nat → Except ApiError BcsBlock

/-- Pure external collaborators: the Move converter (`as_converter` products), BCS,
and cryptographic hashing — all black boxes per the spec (§1, §4.4). -/
structure Externals where
  parseStructTag : MoveStructTag → Except String StructTag
  findResource : Db → Nat → Address → StructTag → Except String (Option Bytes)
  tryIntoResource : StructTag → Bytes → Except String MoveResource
  tryParseAbi : Bytes → Except String MoveModuleBytecode
  parseMoveType : MoveTypeWire → Except String MoveType
  tryIntoVmValue : MoveType → JsonValue → Except String VmValue
  serializeVmKey : VmValue → Option Bytes
  tryIntoMoveValue : MoveType → Bytes → Except String MoveValue
  bcsFromBytesStateKey : Bytes → Except String StateKey
  bcsToBytesStateValue : StateValue → Except String Bytes
  hashStateKey : StateKey → HashValue
  hashStateValue : StateValue → HashValue
  hashLedgerInfoAny : LedgerInfoData → HashValue

/-- The shared request context: the store handle plus the current ledger snapshot
metadata (read-only after initialization, spec §9). -/
structure Context where
  db : Db
  ledgerInfo : LedgerInfo

/-- A ledger read view pinned at one resolved version (spec §4.2: stable snapshot). -/
structure StateView where
  db : Db
  version : Nat

/-- `DbStateView::get_state_value_bytes`: read raw bytes at the pinned version. -/
def StateView.get_state_value_bytes (sv : StateView) (key : StateKey) :
    Except String (Option Bytes) :=
  sv.db.stateValueBytes key sv.version

/-- `DbStateView::get_state_value`: read the state value at the pinned version. -/
def StateView.get_state_value (sv : StateView) (key : StateKey) :
    Except String (Option StateValue) :=
  sv.db.stateValue key sv.version

/-- Modelled from the spec: `Context::state_view` (VersionResolver, spec §4.1) —
`context.rs` is not under `src/`. If the requested version is absent the resolved
version is the latest committed version; if present it must satisfy
`oldest_retained_version <= requested <= latest_version`, otherwise the request
fails with `Gone`; on success the ledger snapshot, the resolved version and a
state view pinned at that version are returned. -/
def Context.state_view (ctx : Context) (requested : Option Nat) :
    Except ApiError (LedgerInfo × Nat × StateView) :=
  match requested with
  | none =>
      Except.ok (ctx.ledgerInfo, ctx.ledgerInfo.ledger_version,
        { db := ctx.db, version := ctx.ledgerInfo.ledger_version })
  | some v =>
      if ctx.ledgerInfo.oldest_ledger_version ≤ v ∧ v ≤ ctx.ledgerInfo.ledger_version then
        Except.ok (ctx.ledgerInfo, v, { db := ctx.db, version := v })
      else
        Except.error ApiError.gone

/-- Modelled from the spec: `Context::get_block_by_height` resolves a block height to
its block record, whose `last_version` is the block's last transaction version
(spec §4.3.1) — `context.rs` is not under `src/`. Failures propagate as-is. -/
def Context.get_block_by_height (ctx : Context) (height : Nat) : Except ApiError BcsBlock :=
  ctx.db.blockByHeight height

/-- `StateApi`: the API object holding the shared context and (for the model) the
pure external collaborators. -/
structure StateApi where
  context : Context
  ext : Externals

/-- `StateApi::resource` (`state.rs` lines 365–424): parse the struct tag
(bad request on failure), resolve the snapshot, `find_resource` (internal error on
storage failure, resource-not-found on absence), then decode for JSON (internal
error on decode failure) or pass the bytes through for BCS. -/
def StateApi.resource (api : StateApi) (accept_type : AcceptType) (address : Address)
    (resource_type : MoveStructTag) (ledger_version : Option Nat) :
    Outcome (BasicResponse MoveResource) :=
  match api.ext.parseStructTag resource_type with
  | Except.error e => Outcome.err (ApiError.badRequest e)
  | Except.ok tag =>
    match Context.state_view api.context ledger_version with
    | Except.error e => Outcome.err e
    | Except.ok (ledger_info, version, state_view) =>
      match api.ext.findResource state_view.db state_view.version address tag with
      | Except.error e => Outcome.err (ApiError.internal e)
      | Except.ok none =>
          Outcome.err (ApiError.resourceNotFound address tag version ledger_info)
      | Except.ok (some bytes) =>
        match accept_type with
        | AcceptType.json =>
          match api.ext.tryIntoResource tag bytes with
          | Except.error e => Outcome.err (ApiError.internal e)
          | Except.ok resource => Outcome.ok (BasicResponse.json resource ledger_info)
        | AcceptType.bcs => Outcome.ok (BasicResponse.bcs bytes ledger_info)

/-- Request body of `get_table_item` (`TableItemRequest`): key type, key, value type. -/
structure TableItemRequest where
  key_type : MoveTypeWire
  key : JsonValue
  value_type : MoveTypeWire
deriving DecidableEq

/-- Request body of `get_raw_table_item` (`RawTableItemRequest`): the serialized key. -/
structure RawTableItemRequest where
  key : Bytes
deriving DecidableEq

/-- Request body of `get_raw_state_value` (`RawStateValueRequest`): BCS bytes of a state key. -/
structure RawStateValueRequest where
  key : Bytes
deriving DecidableEq

/-- `StateApi::module` (`state.rs` lines 628–672): build the module state key, resolve
the snapshot, read the bytes (internal error on storage failure, module-not-found on
absence), then parse the ABI for JSON (internal error on failure) or pass the
bytecode through for BCS. -/
def StateApi.module (api : StateApi) (accept_type : AcceptType) (address : Address)
    (name : String) (ledger_version : Option Nat) :
    Outcome (BasicResponse MoveModuleBytecode) :=
  let state_key := StateKey.moduleKey address name
  match Context.state_view api.context ledger_version with
  | Except.error e => Outcome.err e
  | Except.ok (ledger_info, version, state_view) =>
    match state_view.get_state_value_bytes state_key with
    | Except.error e => Outcome.err (ApiError.internal e)
    | Except.ok none => Outcome.err (ApiError.moduleNotFound address name version ledger_info)
    | Except.ok (some bytes) =>
      match accept_type with
      | AcceptType.json =>
        match api.ext.tryParseAbi bytes with
        | Except.error e => Outcome.err (ApiError.internal e)
        | Except.ok m => Outcome.ok (BasicResponse.json m ledger_info)
      | AcceptType.bcs => Outcome.ok (BasicResponse.bcs bytes ledger_info)

/-- `StateApi::table_item` (`state.rs` lines 675–767): parse the key and value types
(bad request on failure), resolve the snapshot, convert the JSON key to a VM value
(bad request on failure), serialize it (bad request on failure), read the bytes at
the table-item key (internal error on storage failure, table-item-not-found on
absence), then decode for JSON (internal error on failure) or pass through for BCS. -/
def StateApi.table_item (api : StateApi) (accept_type : AcceptType) (table_handle : Address)
    (table_item_request : TableItemRequest) (ledger_version : Option Nat) :
    Outcome (BasicResponse MoveValue) :=
  match api.ext.parseMoveType table_item_request.key_type with
  | Except.error e => Outcome.err (ApiError.badRequest e)
  | Except.ok key_type =>
    match api.ext.parseMoveType table_item_request.value_type with
    | Except.error e => Outcome.err (ApiError.badRequest e)
    | Except.ok value_type =>
      match Context.state_view api.context ledger_version with
      | Except.error e => Outcome.err e
      | Except.ok (ledger_info, version, state_view) =>
        match api.ext.tryIntoVmValue key_type table_item_request.key with
        | Except.error e => Outcome.err (ApiError.badRequest e)
        | Except.ok vm_key =>
          match api.ext.serializeVmKey vm_key with
          | none => Outcome.err (ApiError.badRequest "Failed to serialize table key")
          | some raw_key =>
            match state_view.get_state_value_bytes (StateKey.tableItemKey table_handle raw_key) with
            | Except.error e => Outcome.err (ApiError.internal e)
            | Except.ok none =>
                Outcome.err (ApiError.tableItemNotFound table_handle table_item_request.key
                  version ledger_info)
            | Except.ok (some bytes) =>
              match accept_type with
              | AcceptType.json =>
                match api.ext.tryIntoMoveValue value_type bytes with
                | Except.error e => Outcome.err (ApiError.internal e)
                | Except.ok move_value => Outcome.ok (BasicResponse.json move_value ledger_info)
              | AcceptType.bcs => Outcome.ok (BasicResponse.bcs bytes ledger_info)

/-- `StateApi::raw_table_item` (`state.rs` lines 770–820): resolve the snapshot, read
the bytes at the table-item key built from the already-serialized request key
(internal error on storage failure, `build_not_found` on absence), then refuse the
JSON format or pass the bytes through for BCS. -/
def StateApi.raw_table_item (api : StateApi) (accept_type : AcceptType) (table_handle : Address)
    (table_item_request : RawTableItemRequest) (ledger_version : Option Nat) :
    Outcome (BasicResponse MoveValue) :=
  match Context.state_view api.context ledger_version with
  | Except.error e => Outcome.err e
  | Except.ok (ledger_info, version, state_view) =>
    match state_view.get_state_value_bytes
        (StateKey.tableItemKey table_handle table_item_request.key) with
    | Except.error e => Outcome.err (ApiError.internal e)
    | Except.ok none =>
        Outcome.err (ApiError.rawNotFound "Table Item"
          ("Table handle(" ++ toString table_handle ++ "), Table key("
            ++ toString table_item_request.key ++ ") and Ledger version("
            ++ toString version ++ ")")
          ledger_info)
    | Except.ok (some bytes) =>
      match accept_type with
      | AcceptType.json =>
          Outcome.err (ApiError.forbidden "Get raw table item" "Please use get table item instead.")
      | AcceptType.bcs => Outcome.ok (BasicResponse.bcs bytes ledger_info)

/-- `StateApi::raw_value` (`state.rs` lines 823–889): resolve the snapshot, BCS-decode
the request key (internal error on failure), read the state value (internal error on
storage failure, `build_not_found` on absence), BCS-encode it (internal error on
failure), then refuse the JSON format or return the bytes for BCS. -/
def StateApi.raw_value (api : StateApi) (accept_type : AcceptType)
    (request : RawStateValueRequest) (ledger_version : Option Nat) :
    Outcome (BasicResponse MoveValue) :=
  match Context.state_view api.context ledger_version with
  | Except.error e => Outcome.err e
  | Except.ok (ledger_info, version, state_view) =>
    match api.ext.bcsFromBytesStateKey request.key with
    | Except.error e => Outcome.err (ApiError.internal e)
    | Except.ok state_key =>
      match state_view.get_state_value state_key with
      | Except.error e => Outcome.err (ApiError.internal e)
      | Except.ok none =>
          Outcome.err (ApiError.rawNotFound "Raw State Value"
            ("StateKey(" ++ toString request.key ++ ") and Ledger version("
              ++ toString version ++ ")")
            ledger_info)
      | Except.ok (some state_value) =>
        match api.ext.bcsToBytesStateValue state_value with
        | Except.error e => Outcome.err (ApiError.internal e)
        | Except.ok bytes =>
          match accept_type with
          | AcceptType.json =>
              Outcome.err (ApiError.forbidden "Get raw state value"
                "This serves only bytes. Use other APIs for Json.")
          | AcceptType.bcs => Outcome.ok (BasicResponse.bcs bytes ledger_info)

/-- Handler `get_raw_table_item` (`state.rs` lines 285–318): a JSON accept type is
rejected as forbidden before any work; otherwise delegate to `raw_table_item`. -/
def StateApi.get_raw_table_item (api : StateApi) (accept_type : AcceptType)
    (table_handle : Address) (table_item_request : RawTableItemRequest)
    (ledger_version : Option Nat) : Outcome (BasicResponse MoveValue) :=
  if accept_type = AcceptType.json then
    Outcome.err (ApiError.forbidden "Get raw table item" "Only BCS is supported as an AcceptType.")
  else
    api.raw_table_item accept_type table_handle table_item_request ledger_version

/-- Handler `get_raw_state_value` (`state.rs` lines 334–357): a JSON accept type is
rejected as forbidden before any work; otherwise delegate to `raw_value`. -/
def StateApi.get_raw_state_value (api : StateApi) (accept_type : AcceptType)
    (request : RawStateValueRequest) (ledger_version : Option Nat) :
    Outcome (BasicResponse MoveValue) :=
  if accept_type = AcceptType.json then
    Outcome.err (ApiError.forbidden "Get raw state value" "Only BCS is supported as an AcceptType.")
  else
    api.raw_value accept_type request ledger_version

/-- Wrapping `u64` subtraction: Rust release-mode `a - b` on `u64` (debug builds would
panic on underflow; either way the mathematical difference is not produced when
`a < b`). Callers pass `b ≤ 2 ^ 64`. -/
def u64sub (a b : Nat) : Nat :=
  (a + 2 ^ 64 - b) % 2 ^ 64

/-- `0x1::account::Account`, i.e. `AccountResource::struct_tag()`. -/
def accountResourceStructTag : StructTag :=
  { address := 1, moduleName := "account", name := "Account" }

/-- Inner `get_epoch_change_proof_payload` (`state.rs` lines 433–472): fetch the
epoch-ending checkpoints for `[epoch_number - 2, epoch_number)` (wrapping `u64`
subtraction; internal error on storage failure); `assert_eq!` panics unless exactly
two records were returned; `Vec::remove(0)` takes the earlier record out of the
proof; its `next_epoch_state` (panic via `expect` when absent) gives the verifier of
a `TrustedState::EpochState` for `epoch_number - 1`, anchored at
`Waypoint::new_any` of the earlier record; the proof now holding only the later
record is returned beside it. -/
def get_epoch_change_proof_payload (db : Db) (ext : Externals) (epoch_number : Nat) :
    Outcome (TrustedState × EpochChangeProof) :=
  match db.epochEndingLedgerInfos (u64sub epoch_number 2) epoch_number with
  | Except.error e => Outcome.err (ApiError.internal e)
  | Except.ok epoch_change_proof =>
    if epoch_change_proof.ledger_info_with_sigs.length = 2 then
      match epoch_change_proof.ledger_info_with_sigs.head? with
      | none => Outcome.panic "removal index (is 0) should be < len (is 0)"
      | some penultimate_li =>
        let remaining := epoch_change_proof.ledger_info_with_sigs.tail
        let waypoint := Waypoint.new_any ext.hashLedgerInfoAny penultimate_li.ledger_info
        match penultimate_li.ledger_info.nextEpochState with
        | none => Outcome.panic "Latest li for epoch change should contain a next EpochState"
        | some next_epoch_state =>
            Outcome.ok
              (TrustedState.epochState waypoint
                { epoch := u64sub epoch_number 1, verifier := next_epoch_state.verifier },
               { ledger_info_with_sigs := remaining, more := epoch_change_proof.more })
    else
      Outcome.panic "Expected two LedgerInfoWithSignatures in EpochchangeProof"

/-- The `EpochChangeProofPayload` struct (`state.rs` lines 70–74). -/
structure EpochChangeProofPayload where
  epoch_change_proof : EpochChangeProof
  trusted_state : TrustedState
deriving DecidableEq

/-- `StateApi::epoch_change_proof` (`state.rs` lines 426–512): resolve the latest
snapshot, run `get_epoch_change_proof_payload` on the explicit epoch number or on
the store's latest epoch (internal error if that metadata read fails), bundle the
payload, and return its BCS encoding — any non-BCS accept type is forbidden. -/
def StateApi.epoch_change_proof (api : StateApi) (accept_type : AcceptType)
    (epoch_number : Option Nat) : Outcome (ProofResponse EpochChangeProofPayload) :=
  match Context.state_view api.context none with
  | Except.error e => Outcome.err e
  | Except.ok (ledger_info, _, _) =>
    match
      (match epoch_number with
       | some e => get_epoch_change_proof_payload api.context.db api.ext e
       | none =>
         match api.context.db.latestEpochState with
         | Except.error err => Outcome.err (ApiError.internal err)
         | Except.ok latest_epoch_state =>
             get_epoch_change_proof_payload api.context.db api.ext latest_epoch_state.epoch) with
    | Outcome.err e => Outcome.err e
    | Outcome.panic m => Outcome.panic m
    | Outcome.ok (trusted_state, epoch_change_proof) =>
      let payload : EpochChangeProofPayload :=
        { epoch_change_proof := epoch_change_proof, trusted_state := trusted_state }
      match accept_type with
      | AcceptType.bcs => Outcome.ok (ProofResponse.bcsPayload payload ledger_info)
      | AcceptType.json =>
          Outcome.err (ApiError.forbidden "Get epoch change proof"
            "Only BCS is supported as an AcceptType.")

/-- Handler `get_epoch_change_proof` (`state.rs` lines 159–175): no early accept-type
check; delegates to `epoch_change_proof`. -/
def StateApi.get_epoch_change_proof (api : StateApi) (accept_type : AcceptType)
    (epoch_number : Option Nat) : Outcome (ProofResponse EpochChangeProofPayload) :=
  api.epoch_change_proof accept_type epoch_number

/-- The `AccountProofPayload` struct (`state.rs` lines 51–68). -/
structure AccountProofPayload where
  state_proof : SparseMerkleProof
  element_key : HashValue
  element_hash : HashValue
  transaction_proof : TransactionAccumulatorProof
  transaction : TransactionInfo
  transaction_index : Nat
  ledger_info_v0 : LedgerInfoWithSignatures
  validator_verifier : ValidatorVerifier
deriving DecidableEq

/-- `StateKey::resource(address, struct_tag)`: construction of the canonical account
resource key (from `aptos_types`, not under `src/`; its fallibility is preserved but
the constructor itself always succeeds in the model). -/
def StateKey.resource (address : Address) (tag : StructTag) : Except String StateKey :=
  Except.ok (StateKey.resourceKey address tag)

/-- `StateApi::proof` (`state.rs` lines 514–622): resolve the latest snapshot; pick
`tx_version` as the requested block's `last_version` or else the latest ledger
version; fetch the latest signed ledger info, the account resource key, the latest
epoch state, the state value with its sparse Merkle proof at `tx_version` (absence
of the value is an internal error), and the transaction with its accumulator proof
at the same `tx_version`; bundle everything into `AccountProofPayload` and return
its BCS encoding — any non-BCS accept type is forbidden. -/
def StateApi.proof (api : StateApi) (accept_type : AcceptType) (address : Address)
    (block_height : Option Nat) : Outcome (ProofResponse AccountProofPayload) :=
  match Context.state_view api.context none with
  | Except.error e => Outcome.err e
  | Except.ok (ledger_info, ledger_version, state_view) =>
    match
      (match block_height with
       | some height =>
         match Context.get_block_by_height api.context height with
         | Except.error e => Except.error e
         | Except.ok block => Except.ok block.last_version
       | none => Except.ok ledger_version) with
    | Except.error e => Outcome.err e
    | Except.ok tx_version =>
      match api.context.db.latestLedgerInfoWithSigs with
      | Except.error e => Outcome.err (ApiError.internal e)
      | Except.ok latest_li_w_sig =>
        match StateKey.resource address accountResourceStructTag with
        | Except.error e => Outcome.err (ApiError.internal e)
        | Except.ok account_key =>
          match state_view.db.latestEpochState with
          | Except.error e => Outcome.err (ApiError.internal e)
          | Except.ok latest_epoch_state =>
            match state_view.db.stateValueWithProofByVersion account_key tx_version with
            | Except.error e => Outcome.err (ApiError.internal e)
            | Except.ok (state_value, state_proof) =>
              let sparse_proof := state_proof
              let element_key := api.ext.hashStateKey account_key
              match state_value with
              | none =>
                  Outcome.err (ApiError.internal
                    "No state value from get_state_value_with_proof_by_version")
              | some sv =>
                let element_hash := api.ext.hashStateValue sv
                match api.context.db.transactionByVersion tx_version
                    latest_li_w_sig.ledger_info.version false with
                | Except.error e => Outcome.err (ApiError.internal e)
                | Except.ok txn_w_proof =>
                  let payload : AccountProofPayload :=
                    { state_proof := sparse_proof,
                      element_key := element_key,
                      element_hash := element_hash,
                      transaction_proof := txn_w_proof.proof.ledger_info_to_transaction_info_proof,
                      transaction := txn_w_proof.proof.transaction_info,
                      transaction_index := tx_version,
                      ledger_info_v0 := latest_li_w_sig,
                      validator_verifier := latest_epoch_state.verifier }
                  match accept_type with
                  | AcceptType.bcs => Outcome.ok (ProofResponse.bcsPayload payload ledger_info)
                  | AcceptType.json =>
                      Outcome.err (ApiError.forbidden "Get account proof"
                        "Only BCS is supported as an AcceptType.")

/-- Handler `get_account_proof` (`state.rs` lines 132–151): no early accept-type
check; delegates to `proof`. -/
def StateApi.get_account_proof (api : StateApi) (accept_type : AcceptType)
    (address : Address) (block_height : Option Nat) :
    Outcome (ProofResponse AccountProofPayload) :=
  api.proof accept_type address block_height

/-! ### Concrete test fixtures

A small in-memory ledger store and collaborator set used to evaluate the
operations at concrete inputs (witnesses and counterexamples). -/

/-- Fixture ledger snapshot: latest version 100, retention window starting at 60. -/
def liFix : LedgerInfo :=
  { chain_id := 1, epoch := 7, ledger_version := 100, oldest_ledger_version := 60,
    block_height := 40, oldest_block_height := 10, ledger_timestamp := 999 }

/-- Fixture epoch-3-ending checkpoint, carrying the next (epoch 4) validator set. -/
def liwsA : LedgerInfoWithSignatures :=
  { ledger_info :=
      { epoch := 3, version := 30, timestampUsecs := 300,
        nextEpochState := some { epoch := 4, verifier := [4, 5] } },
    signatures := 1 }

/-- Fixture epoch-4-ending checkpoint, carrying the next (epoch 5) validator set. -/
def liwsB : LedgerInfoWithSignatures :=
  { ledger_info :=
      { epoch := 4, version := 40, timestampUsecs := 400,
        nextEpochState := some { epoch := 5, verifier := [6] } },
    signatures := 2 }

/-- Fixture external collaborators: a decoder that sums bytes and fails on `[9]`,
identity-like BCS, and trivial hashes. -/
def extFix : Externals :=
  { parseStructTag := fun s =>
      if s = "bad" then Except.error "Failed to parse given resource type"
      else Except.ok { address := 1, moduleName := "account", name := s },
    findResource := fun _ _ a _ =>
      if a = 9 then Except.ok (some [9])
      else if a = 7 then Except.ok (some [1, 2])
      else Except.ok none,
    tryIntoResource := fun _ b =>
      if b = [9] then Except.error "Failed to deserialize resource data retrieved from DB"
      else Except.ok (b.foldl (fun x y => x + y) 0),
    tryParseAbi := fun b =>
      if b = [9] then Except.error "Failed to parse move module ABI from bytes retrieved from storage"
      else Except.ok b.length,
    parseMoveType := fun t =>
      if t = 0 then Except.error "Failed to parse type" else Except.ok t,
    tryIntoVmValue := fun _ k => Except.ok k,
    serializeVmKey := fun v => some [v],
    tryIntoMoveValue := fun _ b =>
      if b = [9] then Except.error "Failed to deserialize table item retrieved from DB"
      else Except.ok (b.foldl (fun x y => x + y) 0),
    bcsFromBytesStateKey := fun b => Except.ok (StateKey.raw b),
    bcsToBytesStateValue := fun v => Except.ok v,
    hashStateKey := fun _ => 11,
    hashStateValue := fun v => v.length,
    hashLedgerInfoAny := fun li => li.version }

/-- Fixture store: two epoch-ending checkpoints for the range `[3, 5)`, module and
table values at addresses 7 (well-formed bytes) and 9 (bytes the decoder rejects),
an account state value with proof at every version, and blocks whose last version
is ten times the height. -/
def dbFix : Db :=
  { latestLedgerInfoWithSigs :=
      Except.ok
        { ledger_info :=
            { epoch := 7, version := 100, timestampUsecs := 999, nextEpochState := none },
          signatures := 0 },
    latestEpochState := Except.ok { epoch := 7, verifier := [1, 2, 3] },
    epochEndingLedgerInfos := fun lo hi =>
      if lo = 3 ∧ hi = 5 then Except.ok { ledger_info_with_sigs := [liwsA, liwsB], more := false }
      else Except.error "epoch range not available",
    stateValueBytes := fun k _ =>
      match k with
      | StateKey.moduleKey 7 _ => Except.ok (some [1, 2])
      | StateKey.moduleKey 9 _ => Except.ok (some [9])
      | StateKey.tableItemKey 7 _ => Except.ok (some [1, 2])
      | StateKey.tableItemKey 9 _ => Except.ok (some [9])
      | _ => Except.ok none,
    stateValue := fun k _ =>
      match k with
      | StateKey.raw [5] => Except.ok (some [5, 6])
      | _ => Except.ok none,
    stateValueWithProofByVersion := fun _ _ =>
      Except.ok (some [4], { leaf := some (1, 2), siblings := [3] }),
    transactionByVersion := fun v _ _ =>
      Except.ok
        { proof :=
            { ledger_info_to_transaction_info_proof := { siblings := [v] },
              transaction_info := { stateChangeHash := 1, eventRootHash := 2, gasUsed := 3 } } },
    blockByHeight := fun h => Except.ok { last_version := h * 10 } }

/-- Fixture API object. -/
def apiFix : StateApi :=
  { context := { db := dbFix, ledgerInfo := liFix }, ext := extFix }

/-- Store variant whose account state lookup finds no value (only a non-inclusion proof). -/
def apiNoAccount : StateApi :=
  { apiFix with
    context :=
      { db :=
          { dbFix with
            stateValueWithProofByVersion := fun _ _ =>
              Except.ok (none, { leaf := none, siblings := [] }) },
        ledgerInfo := liFix } }

/-- Store variant returning a single epoch-ending checkpoint. -/
def apiOneRecord : StateApi :=
  { apiFix with
    context :=
      { db :=
          { dbFix with
            epochEndingLedgerInfos := fun _ _ =>
              Except.ok { ledger_info_with_sigs := [liwsA], more := false } },
        ledgerInfo := liFix } }

/-- Store variant returning no epoch-ending checkpoint. -/
def apiZeroRecords : StateApi :=
  { apiFix with
    context :=
      { db :=
          { dbFix with
            epochEndingLedgerInfos := fun _ _ =>
              Except.ok { ledger_info_with_sigs := [], more := false } },
        ledgerInfo := liFix } }

/-- Store variant returning three epoch-ending checkpoints. -/
def apiThreeRecords : StateApi :=
  { apiFix with
    context :=
      { db :=
          { dbFix with
            epochEndingLedgerInfos := fun _ _ =>
              Except.ok { ledger_info_with_sigs := [liwsA, liwsB, liwsB], more := true } },
        ledgerInfo := liFix } }

/-- Store variant that records the epoch range it is asked for in the error text. -/
def apiProbe : StateApi :=
  { apiFix with
    context :=
      { db :=
          { dbFix with
            epochEndingLedgerInfos := fun lo hi =>
              Except.error ("start=" ++ toString lo ++ " end=" ++ toString hi) },
        ledgerInfo := liFix } }

/-- Probe variant whose latest epoch metadata reports epoch 1. -/
def apiProbeLatestOne : StateApi :=
  { apiFix with
    context :=
      { db :=
          { dbFix with
            epochEndingLedgerInfos := fun lo hi =>
              Except.error ("start=" ++ toString lo ++ " end=" ++ toString hi),
            latestEpochState := Except.ok { epoch := 1, verifier := [] } },
        ledgerInfo := liFix } }

/-! ### Shared helper lemmas -/

/-- Wrapping `u64` subtraction agrees with mathematical subtraction when no underflow
occurs and the minuend is in range. -/
theorem u64sub_eq_sub (a b : Nat) (hb : b ≤ a) (ha : a < 2 ^ 64) : u64sub a b = a - b := by
  unfold u64sub
  have h1 : a + 2 ^ 64 - b = (a - b) + 2 ^ 64 := by omega
  rw [h1, Nat.add_mod_right, Nat.mod_eq_of_lt (by omega)]

/-- `Context.state_view` with no requested version always resolves to the latest
committed version of the snapshot. -/
theorem state_view_none (ctx : Context) :
    Context.state_view ctx none
      = Except.ok (ctx.ledgerInfo, ctx.ledgerInfo.ledger_version,
          { db := ctx.db, version := ctx.ledgerInfo.ledger_version }) := rfl

/-- `Context.state_view` rejects a requested version outside the retention window. -/
theorem state_view_out_of_window (ctx : Context) (v : Nat)
    (hv : v < ctx.ledgerInfo.oldest_ledger_version ∨ ctx.ledgerInfo.ledger_version < v) :
    Context.state_view ctx (some v) = Except.error ApiError.gone := by
  have hnot : ¬ (ctx.ledgerInfo.oldest_ledger_version ≤ v ∧ v ≤ ctx.ledgerInfo.ledger_version) := by
    omega
  simp [Context.state_view, hnot]

/-- Shape of `StateApi.proof`: either every accept type yields the same classified
error, or proof assembly succeeds, the BCS run returns the assembled payload, and
the JSON run is forbidden. -/
theorem StateApi.proof_shape (api : StateApi) (a : Address) (bh : Option Nat) :
    (∃ e, ∀ acc, api.proof acc a bh = Outcome.err e)
    ∨ (∃ tx_version lis les sval sproof txw,
        ((bh = none ∧ tx_version = api.context.ledgerInfo.ledger_version)
          ∨ (∃ hgt blk, bh = some hgt ∧ api.context.db.blockByHeight hgt = Except.ok blk
              ∧ tx_version = blk.last_version))
        ∧ api.context.db.latestLedgerInfoWithSigs = Except.ok lis
        ∧ api.context.db.latestEpochState = Except.ok les
        ∧ api.context.db.stateValueWithProofByVersion
            (StateKey.resourceKey a accountResourceStructTag) tx_version
            = Except.ok (some sval, sproof)
        ∧ api.context.db.transactionByVersion tx_version lis.ledger_info.version false
            = Except.ok txw
        ∧ api.proof AcceptType.bcs a bh
            = Outcome.ok (ProofResponse.bcsPayload
                { state_proof := sproof,
                  element_key := api.ext.hashStateKey
                    (StateKey.resourceKey a accountResourceStructTag),
                  element_hash := api.ext.hashStateValue sval,
                  transaction_proof := txw.proof.ledger_info_to_transaction_info_proof,
                  transaction := txw.proof.transaction_info,
                  transaction_index := tx_version,
                  ledger_info_v0 := lis,
                  validator_verifier := les.verifier } api.context.ledgerInfo)
        ∧ api.proof AcceptType.json a bh
            = Outcome.err (ApiError.forbidden "Get account proof"
                "Only BCS is supported as an AcceptType.")) := by
  cases bh with
  | none =>
    cases hlis : api.context.db.latestLedgerInfoWithSigs with
    | error e =>
      exact Or.inl ⟨ApiError.internal e, fun acc => by
        simp [StateApi.proof, Context.state_view, hlis]⟩
    | ok lis =>
      cases hles : api.context.db.latestEpochState with
      | error e =>
        exact Or.inl ⟨ApiError.internal e, fun acc => by
          simp [StateApi.proof, Context.state_view, StateKey.resource, hlis, hles]⟩
      | ok les =>
        cases hsv : api.context.db.stateValueWithProofByVersion
            (StateKey.resourceKey a accountResourceStructTag)
            api.context.ledgerInfo.ledger_version with
        | error e =>
          exact Or.inl ⟨ApiError.internal e, fun acc => by
            simp [StateApi.proof, Context.state_view, StateKey.resource, hlis, hles, hsv]⟩
        | ok pair =>
          obtain ⟨sval, sproof⟩ := pair
          cases sval with
          | none =>
            refine Or.inl
              ⟨ApiError.internal "No state value from get_state_value_with_proof_by_version",
                fun acc => ?_⟩
            simp [StateApi.proof, Context.state_view, StateKey.resource, hlis, hles, hsv]
          | some sv =>
            cases htw : api.context.db.transactionByVersion
                api.context.ledgerInfo.ledger_version lis.ledger_info.version false with
            | error e =>
              exact Or.inl ⟨ApiError.internal e, fun acc => by
                simp [StateApi.proof, Context.state_view, StateKey.resource, hlis, hles, hsv,
                  htw]⟩
            | ok txw =>
              refine Or.inr ⟨api.context.ledgerInfo.ledger_version, lis, les, sv, sproof, txw,
                Or.inl ⟨rfl, rfl⟩, rfl, rfl, hsv, htw, ?_, ?_⟩
              all_goals
                simp [StateApi.proof, Context.state_view, StateKey.resource, hlis, hles, hsv,
                  htw]
  | some hgt =>
    cases hblk : api.context.db.blockByHeight hgt with
    | error e =>
      exact Or.inl ⟨e, fun acc => by
        simp [StateApi.proof, Context.state_view, Context.get_block_by_height, hblk]⟩
    | ok blk =>
      cases hlis : api.context.db.latestLedgerInfoWithSigs with
      | error e =>
        exact Or.inl ⟨ApiError.internal e, fun acc => by
          simp [StateApi.proof, Context.state_view, Context.get_block_by_height, hblk, hlis]⟩
      | ok lis =>
        cases hles : api.context.db.latestEpochState with
        | error e =>
          exact Or.inl ⟨ApiError.internal e, fun acc => by
            simp [StateApi.proof, Context.state_view, Context.get_block_by_height, hblk,
              StateKey.resource, hlis, hles]⟩
        | ok les =>
          cases hsv : api.context.db.stateValueWithProofByVersion
              (StateKey.resourceKey a accountResourceStructTag) blk.last_version with
          | error e =>
            exact Or.inl ⟨ApiError.internal e, fun acc => by
              simp [StateApi.proof, Context.state_view, Context.get_block_by_height, hblk,
                StateKey.resource, hlis, hles, hsv]⟩
          | ok pair =>
            obtain ⟨sval, sproof⟩ := pair
            cases sval with
            | none =>
              refine Or.inl
                ⟨ApiError.internal "No state value from get_state_value_with_proof_by_version",
                  fun acc => ?_⟩
              simp [StateApi.proof, Context.state_view, Context.get_block_by_height, hblk,
                StateKey.resource, hlis, hles, hsv]
            | some sv =>
              cases htw : api.context.db.transactionByVersion blk.last_version
                  lis.ledger_info.version false with
              | error e =>
                exact Or.inl ⟨ApiError.internal e, fun acc => by
                  simp [StateApi.proof, Context.state_view, Context.get_block_by_height, hblk,
                    StateKey.resource, hlis, hles, hsv, htw]⟩
              | ok txw =>
                refine Or.inr ⟨blk.last_version, lis, les, sv, sproof, txw,
                  Or.inr ⟨hgt, blk, rfl, hblk, rfl⟩, rfl, rfl, hsv, htw, ?_, ?_⟩
                all_goals
                  simp [StateApi.proof, Context.state_view, Context.get_block_by_height, hblk,
                    StateKey.resource, hlis, hles, hsv, htw]

/-- Shape of `StateApi.epoch_change_proof`: the payload assembly is independent of
the accept type; it either fails uniformly (classified error or panic), or succeeds,
in which case the BCS run returns the payload and the JSON run is forbidden. -/
theorem StateApi.epoch_change_proof_shape (api : StateApi) (en : Option Nat) :
    (∃ e, ∀ acc, api.epoch_change_proof acc en = Outcome.err e)
    ∨ (∃ m, ∀ acc, api.epoch_change_proof acc en = Outcome.panic m)
    ∨ (∃ ts ecp,
        api.epoch_change_proof AcceptType.bcs en
          = Outcome.ok (ProofResponse.bcsPayload
              { epoch_change_proof := ecp, trusted_state := ts } api.context.ledgerInfo)
        ∧ api.epoch_change_proof AcceptType.json en
          = Outcome.err (ApiError.forbidden "Get epoch change proof"
              "Only BCS is supported as an AcceptType.")) := by
  cases en with
  | some e =>
    cases hp : get_epoch_change_proof_payload api.context.db api.ext e with
    | err e2 =>
      exact Or.inl ⟨e2, fun acc => by
        simp [StateApi.epoch_change_proof, Context.state_view, hp]⟩
    | panic m =>
      exact Or.inr (Or.inl ⟨m, fun acc => by
        simp [StateApi.epoch_change_proof, Context.state_view, hp]⟩)
    | ok pr =>
      obtain ⟨ts, ecp⟩ := pr
      refine Or.inr (Or.inr ⟨ts, ecp, ?_, ?_⟩)
      all_goals simp [StateApi.epoch_change_proof, Context.state_view, hp]
  | none =>
    cases hles : api.context.db.latestEpochState with
    | error e2 =>
      exact Or.inl ⟨ApiError.internal e2, fun acc => by
        simp [StateApi.epoch_change_proof, Context.state_view, hles]⟩
    | ok les =>
      cases hp : get_epoch_change_proof_payload api.context.db api.ext les.epoch with
      | err e2 =>
        exact Or.inl ⟨e2, fun acc => by
          simp [StateApi.epoch_change_proof, Context.state_view, hles, hp]⟩
      | panic m =>
        exact Or.inr (Or.inl ⟨m, fun acc => by
          simp [StateApi.epoch_change_proof, Context.state_view, hles, hp]⟩)
      | ok pr =>
        obtain ⟨ts, ecp⟩ := pr
        refine Or.inr (Or.inr ⟨ts, ecp, ?_, ?_⟩)
        all_goals simp [StateApi.epoch_change_proof, Context.state_view, hles, hp]

/-! ### Claim theorems -/

/-- C1: the claim says that whenever the store returns a number of epoch-ending
checkpoint records different from two, `get_epoch_change_proof` terminates with an
`Internal` error outcome and not an abort/panic. The code instead executes
`assert_eq!(epoch_change_proof.ledger_info_with_sigs.len(), 2, ...)`, which panics:
at stores returning one, zero, or three records for `epoch_number = 5` the operation
evaluates to the `assert_eq!` panic, not to an `err` outcome. -/
theorem epoch_change_proof_panics_when_record_count_not_two :
    StateApi.epoch_change_proof apiOneRecord AcceptType.bcs (some 5)
      = Outcome.panic "Expected two LedgerInfoWithSignatures in EpochchangeProof"
    ∧ StateApi.epoch_change_proof apiZeroRecords AcceptType.bcs (some 5)
      = Outcome.panic "Expected two LedgerInfoWithSignatures in EpochchangeProof"
    ∧ StateApi.epoch_change_proof apiThreeRecords AcceptType.bcs (some 5)
      = Outcome.panic "Expected two LedgerInfoWithSignatures in EpochchangeProof"
    ∧ StateApi.epoch_change_proof apiOneRecord AcceptType.bcs (some 5)
      ≠ Outcome.err (ApiError.internal "Expected two LedgerInfoWithSignatures in EpochchangeProof") := by
  refine ⟨?_, ?_, ?_, ?_⟩ <;> decide

/-- C2: for every read operation with an explicitly requested version outside
`[oldest_retained_version, latest_version]` the result is `Gone` (never a
not-found and never a value), and when no version is requested the resolver picks
the latest committed version. The resolver itself (`Context::state_view`) is
modelled from the spec because `context.rs` is not under `src/`. -/
theorem reads_out_of_window_gone_and_absent_version_resolves_latest
    (api : StateApi) (v : Nat)
    (hv : v < api.context.ledgerInfo.oldest_ledger_version
      ∨ api.context.ledgerInfo.ledger_version < v) :
    (∀ acc a rt tag, api.ext.parseStructTag rt = Except.ok tag →
        api.resource acc a rt (some v) = Outcome.err ApiError.gone)
    ∧ (∀ acc a n, api.module acc a n (some v) = Outcome.err ApiError.gone)
    ∧ (∀ acc th req kt vt, api.ext.parseMoveType req.key_type = Except.ok kt →
        api.ext.parseMoveType req.value_type = Except.ok vt →
        api.table_item acc th req (some v) = Outcome.err ApiError.gone)
    ∧ (∀ acc th req, api.raw_table_item acc th req (some v) = Outcome.err ApiError.gone)
    ∧ (∀ acc req, api.raw_value acc req (some v) = Outcome.err ApiError.gone)
    ∧ Context.state_view api.context none
        = Except.ok (api.context.ledgerInfo, api.context.ledgerInfo.ledger_version,
            { db := api.context.db, version := api.context.ledgerInfo.ledger_version }) := by
  have hgone := state_view_out_of_window api.context v hv
  refine ⟨?_, ?_, ?_, ?_, ?_, state_view_none api.context⟩
  · intro acc a rt tag hp
    simp [StateApi.resource, hp, hgone]
  · intro acc a n
    simp [StateApi.module, hgone]
  · intro acc th req kt vt hk hvt
    simp [StateApi.table_item, hk, hvt, hgone]
  · intro acc th req
    simp [StateApi.raw_table_item, hgone]
  · intro acc req
    simp [StateApi.raw_value, hgone]

/-- C2 witness: at the fixture (window `[60, 100]`) a module read and a resource
read at version 3 both resolve to `Gone`, and the fixture resolver with no version
picks version 100. -/
theorem reads_out_of_window_gone_witness :
    StateApi.module apiFix AcceptType.bcs 7 "m" (some 3) = Outcome.err ApiError.gone
    ∧ StateApi.resource apiFix AcceptType.bcs 7 "Account" (some 3) = Outcome.err ApiError.gone
    ∧ Context.state_view apiFix.context none
        = Except.ok (liFix, 100, { db := dbFix, version := 100 }) :=
  ⟨(reads_out_of_window_gone_and_absent_version_resolves_latest apiFix 3
      (Or.inl (by decide))).2.1 AcceptType.bcs 7 "m",
   (reads_out_of_window_gone_and_absent_version_resolves_latest apiFix 3
      (Or.inl (by decide))).1 AcceptType.bcs 7 "Account"
      { address := 1, moduleName := "account", name := "Account" } rfl,
   (reads_out_of_window_gone_and_absent_version_resolves_latest apiFix 3
      (Or.inl (by decide))).2.2.2.2.2⟩

/-- C3 counterexample: at a store holding epoch-ending checkpoints `liwsA` (epoch 3)
and `liwsB` (epoch 4) for the range `[3, 5)`, the successful
`get_epoch_change_proof(epoch_number = 5)` payload carries an `EpochChangeProof`
containing only the later record `liwsB` — not the fetched pair, as the claim
states: the earlier record is removed (`Vec::remove(0)`) to build the trusted
state. -/
theorem epoch_change_proof_drops_earlier_record :
    StateApi.epoch_change_proof apiFix AcceptType.bcs (some 5)
      = Outcome.ok (ProofResponse.bcsPayload
          { epoch_change_proof := { ledger_info_with_sigs := [liwsB], more := false },
            trusted_state := TrustedState.epochState { version := 30, value := 30 }
              { epoch := 4, verifier := [4, 5] } }
          liFix)
    ∧ ({ ledger_info_with_sigs := [liwsB], more := false } : EpochChangeProof)
        ≠ { ledger_info_with_sigs := [liwsA, liwsB], more := false } := by
  refine ⟨?_, ?_⟩ <;> decide

/-- C3 amended: for every successful `get_epoch_change_proof` with target epoch `e`
(explicit, or the store's latest epoch when absent), the store is asked for the
epoch-ending checkpoints spanning `[e-2, e)`; the returned `TrustedState` is the
`EpochState` variant for epoch `e-1` whose validator set is the next-validator-set
embedded in the earlier of the two fetched checkpoints; and only the later of the
two fetched checkpoints is returned as the `EpochChangeProof` of the payload (the
earlier one is removed to anchor the trusted state). -/
theorem epoch_change_proof_target_spec (api : StateApi) (e : Nat)
    (he2 : 2 ≤ e) (heW : e < 2 ^ 64)
    (ecp : EpochChangeProof) (liE liL : LedgerInfoWithSignatures)
    (hfetch : api.context.db.epochEndingLedgerInfos (e - 2) e = Except.ok ecp)
    (hpair : ecp.ledger_info_with_sigs = [liE, liL])
    (nes : EpochState) (hnes : liE.ledger_info.nextEpochState = some nes) :
    api.epoch_change_proof AcceptType.bcs (some e)
      = Outcome.ok (ProofResponse.bcsPayload
          { epoch_change_proof := { ledger_info_with_sigs := [liL], more := ecp.more },
            trusted_state := TrustedState.epochState
              (Waypoint.new_any api.ext.hashLedgerInfoAny liE.ledger_info)
              { epoch := e - 1, verifier := nes.verifier } }
          api.context.ledgerInfo)
    ∧ (∀ les, api.context.db.latestEpochState = Except.ok les → les.epoch = e →
        api.epoch_change_proof AcceptType.bcs none
          = Outcome.ok (ProofResponse.bcsPayload
              { epoch_change_proof := { ledger_info_with_sigs := [liL], more := ecp.more },
                trusted_state := TrustedState.epochState
                  (Waypoint.new_any api.ext.hashLedgerInfoAny liE.ledger_info)
                  { epoch := e - 1, verifier := nes.verifier } }
              api.context.ledgerInfo)) := by
  have h2 : u64sub e 2 = e - 2 := u64sub_eq_sub e 2 he2 heW
  have h1 : u64sub e 1 = e - 1 := u64sub_eq_sub e 1 (by omega) heW
  have hpay : get_epoch_change_proof_payload api.context.db api.ext e
      = Outcome.ok
          (TrustedState.epochState
            (Waypoint.new_any api.ext.hashLedgerInfoAny liE.ledger_info)
            { epoch := e - 1, verifier := nes.verifier },
           { ledger_info_with_sigs := [liL], more := ecp.more }) := by
    simp [get_epoch_change_proof_payload, h2, h1, hfetch, hpair, hnes]
  constructor
  · simp [StateApi.epoch_change_proof, Context.state_view, hpay]
  · intro les hles hee
    simp [StateApi.epoch_change_proof, Context.state_view, hles, hee, hpay]

/-- C3 amended witness: the amended statement evaluated at the fixture with target
epoch 5. -/
theorem epoch_change_proof_target_spec_witness :
    StateApi.epoch_change_proof apiFix AcceptType.bcs (some 5)
      = Outcome.ok (ProofResponse.bcsPayload
          { epoch_change_proof := { ledger_info_with_sigs := [liwsB], more := false },
            trusted_state := TrustedState.epochState
              (Waypoint.new_any apiFix.ext.hashLedgerInfoAny liwsA.ledger_info)
              { epoch := 4, verifier := [4, 5] } }
          apiFix.context.ledgerInfo) :=
  (epoch_change_proof_target_spec apiFix 5 (by decide) (by norm_num)
    { ledger_info_with_sigs := [liwsA, liwsB], more := false } liwsA liwsB rfl rfl
    { epoch := 4, verifier := [4, 5] } rfl).1

/-- C4 counterexample: a decoded-format (JSON) `get_account_proof` request does not
always fail with the forbidden format error — the accept-type check runs only after
proof assembly, so at a store whose account state value is absent the JSON request
fails with an `Internal` error instead. -/
theorem decoded_account_proof_request_not_forbidden :
    StateApi.get_account_proof apiNoAccount AcceptType.json 7 none
      = Outcome.err (ApiError.internal "No state value from get_state_value_with_proof_by_version")
    ∧ StateApi.get_account_proof apiNoAccount AcceptType.json 7 none
      ≠ Outcome.err (ApiError.forbidden "Get account proof"
          "Only BCS is supported as an AcceptType.") := by
  refine ⟨?_, ?_⟩ <;> decide

/-- C4 amended: a decoded-format request to `get_raw_table_item` or
`get_raw_state_value` fails immediately with the forbidden error (before any store
read, hence never attempting byte-to-value decoding); a decoded-format request to
`get_account_proof` or `get_epoch_change_proof` never yields a payload, and
whenever proof assembly itself succeeds (as witnessed by the BCS run) it fails with
the forbidden error — but when assembly fails first, that earlier failure is
reported instead. -/
theorem decoded_requests_on_raw_endpoints (api : StateApi) :
    (∀ th req lv, api.get_raw_table_item AcceptType.json th req lv
        = Outcome.err (ApiError.forbidden "Get raw table item"
            "Only BCS is supported as an AcceptType."))
    ∧ (∀ req lv, api.get_raw_state_value AcceptType.json req lv
        = Outcome.err (ApiError.forbidden "Get raw state value"
            "Only BCS is supported as an AcceptType."))
    ∧ (∀ a bh r, api.proof AcceptType.json a bh ≠ Outcome.ok r)
    ∧ (∀ en r, api.epoch_change_proof AcceptType.json en ≠ Outcome.ok r)
    ∧ (∀ a bh payload li,
        api.proof AcceptType.bcs a bh = Outcome.ok (ProofResponse.bcsPayload payload li) →
        api.proof AcceptType.json a bh
          = Outcome.err (ApiError.forbidden "Get account proof"
              "Only BCS is supported as an AcceptType."))
    ∧ (∀ en payload li,
        api.epoch_change_proof AcceptType.bcs en
          = Outcome.ok (ProofResponse.bcsPayload payload li) →
        api.epoch_change_proof AcceptType.json en
          = Outcome.err (ApiError.forbidden "Get epoch change proof"
              "Only BCS is supported as an AcceptType.")) := by
  refine ⟨?_, ?_, ?_, ?_, ?_, ?_⟩
  · intro th req lv
    simp [StateApi.get_raw_table_item]
  · intro req lv
    simp [StateApi.get_raw_state_value]
  · intro a bh r h
    rcases StateApi.proof_shape api a bh with ⟨e, he⟩ | ⟨_, _, _, _, _, _, _, _, _, _, _, _, hj⟩
    · rw [he AcceptType.json] at h
      exact Outcome.noConfusion h
    · rw [hj] at h
      exact Outcome.noConfusion h
  · intro en r h
    rcases StateApi.epoch_change_proof_shape api en with
      ⟨e, he⟩ | ⟨m, hm⟩ | ⟨_, _, _, hj⟩
    · rw [he AcceptType.json] at h
      exact Outcome.noConfusion h
    · rw [hm AcceptType.json] at h
      exact Outcome.noConfusion h
    · rw [hj] at h
      exact Outcome.noConfusion h
  · intro a bh payload li hbcs
    rcases StateApi.proof_shape api a bh with ⟨e, he⟩ | ⟨_, _, _, _, _, _, _, _, _, _, _, _, hj⟩
    · rw [he AcceptType.bcs] at hbcs
      exact Outcome.noConfusion hbcs
    · exact hj
  · intro en payload li hbcs
    rcases StateApi.epoch_change_proof_shape api en with
      ⟨e, he⟩ | ⟨m, hm⟩ | ⟨_, _, _, hj⟩
    · rw [he AcceptType.bcs] at hbcs
      exact Outcome.noConfusion hbcs
    · rw [hm AcceptType.bcs] at hbcs
      exact Outcome.noConfusion hbcs
    · exact hj

/-- C4 amended witness: the four endpoints at the fixture — the raw-only value
endpoints refuse JSON outright, and on a store where assembly succeeds, the two
proof endpoints refuse JSON as well. -/
theorem decoded_requests_on_raw_endpoints_witness :
    StateApi.get_raw_table_item apiFix AcceptType.json 7 { key := [1] } none
      = Outcome.err (ApiError.forbidden "Get raw table item"
          "Only BCS is supported as an AcceptType.")
    ∧ StateApi.get_raw_state_value apiFix AcceptType.json { key := [5] } none
      = Outcome.err (ApiError.forbidden "Get raw state value"
          "Only BCS is supported as an AcceptType.")
    ∧ StateApi.proof apiFix AcceptType.json 7 none
      = Outcome.err (ApiError.forbidden "Get account proof"
          "Only BCS is supported as an AcceptType.")
    ∧ StateApi.epoch_change_proof apiFix AcceptType.json (some 5)
      = Outcome.err (ApiError.forbidden "Get epoch change proof"
          "Only BCS is supported as an AcceptType.") :=
  ⟨(decoded_requests_on_raw_endpoints apiFix).1 7 { key := [1] } none,
   (decoded_requests_on_raw_endpoints apiFix).2.1 { key := [5] } none,
   (decoded_requests_on_raw_endpoints apiFix).2.2.2.2.1 7 none
     { state_proof := { leaf := some (1, 2), siblings := [3] },
       element_key := 11,
       element_hash := 1,
       transaction_proof := { siblings := [100] },
       transaction := { stateChangeHash := 1, eventRootHash := 2, gasUsed := 3 },
       transaction_index := 100,
       ledger_info_v0 :=
         { ledger_info :=
             { epoch := 7, version := 100, timestampUsecs := 999, nextEpochState := none },
           signatures := 0 },
       validator_verifier := [1, 2, 3] }
     liFix (by decide),
   (decoded_requests_on_raw_endpoints apiFix).2.2.2.2.2 (some 5)
     { epoch_change_proof := { ledger_info_with_sigs := [liwsB], more := false },
       trusted_state := TrustedState.epochState { version := 30, value := 30 }
         { epoch := 4, verifier := [4, 5] } }
     liFix (by decide)⟩

/-- C5: every successful `get_account_proof` uses a single transaction version
throughout — it equals the requested block's last transaction version when a block
height is given and the latest ledger version otherwise; the sparse Merkle state
proof, and the transaction with its accumulator proof, are both fetched at exactly
that version; and the payload's `transaction_index` equals it. -/
theorem account_proof_single_transaction_version (api : StateApi) (acc : AcceptType)
    (a : Address) (bh : Option Nat) (payload : AccountProofPayload) (li : LedgerInfo)
    (h : api.proof acc a bh = Outcome.ok (ProofResponse.bcsPayload payload li)) :
    ∃ lis les sval txw,
      li = api.context.ledgerInfo
      ∧ ((bh = none ∧ payload.transaction_index = api.context.ledgerInfo.ledger_version)
        ∨ (∃ hgt blk, bh = some hgt ∧ api.context.db.blockByHeight hgt = Except.ok blk
            ∧ payload.transaction_index = blk.last_version))
      ∧ api.context.db.stateValueWithProofByVersion
          (StateKey.resourceKey a accountResourceStructTag) payload.transaction_index
          = Except.ok (some sval, payload.state_proof)
      ∧ api.context.db.latestLedgerInfoWithSigs = Except.ok lis
      ∧ payload.ledger_info_v0 = lis
      ∧ api.context.db.transactionByVersion payload.transaction_index
          lis.ledger_info.version false = Except.ok txw
      ∧ payload.transaction = txw.proof.transaction_info
      ∧ payload.transaction_proof = txw.proof.ledger_info_to_transaction_info_proof
      ∧ api.context.db.latestEpochState = Except.ok les
      ∧ payload.validator_verifier = les.verifier := by
  rcases StateApi.proof_shape api a bh with ⟨e, he⟩ |
    ⟨tx, lis, les, sval, sproof, txw, hsrc, hlis, hles, hsv, htw, hb, hj⟩
  · rw [he acc] at h
    exact Outcome.noConfusion h
  · cases acc with
    | json =>
      rw [hj] at h
      exact Outcome.noConfusion h
    | bcs =>
      rw [hb] at h
      injection h with h1
      injection h1 with hpay hli
      subst hpay
      subst hli
      exact ⟨lis, les, sval, txw, rfl, hsrc, hsv, hlis, rfl, htw, rfl, rfl, hles, rfl⟩

/-- C5 witness: the property evaluated at the fixture, once with no block height
(transaction version 100, the latest) and applied through the theorem. -/
theorem account_proof_single_transaction_version_witness :
    ∃ lis les sval txw,
      liFix = apiFix.context.ledgerInfo
      ∧ (((none : Option Nat) = none
          ∧ (100 : Nat) = apiFix.context.ledgerInfo.ledger_version)
        ∨ (∃ hgt blk, (none : Option Nat) = some hgt
            ∧ apiFix.context.db.blockByHeight hgt = Except.ok blk
            ∧ (100 : Nat) = blk.last_version))
      ∧ apiFix.context.db.stateValueWithProofByVersion
          (StateKey.resourceKey 7 accountResourceStructTag) 100
          = Except.ok (some sval, { leaf := some (1, 2), siblings := [3] })
      ∧ apiFix.context.db.latestLedgerInfoWithSigs = Except.ok lis
      ∧ ({ ledger_info :=
             { epoch := 7, version := 100, timestampUsecs := 999, nextEpochState := none },
           signatures := 0 } : LedgerInfoWithSignatures) = lis
      ∧ apiFix.context.db.transactionByVersion 100 lis.ledger_info.version false
          = Except.ok txw
      ∧ ({ stateChangeHash := 1, eventRootHash := 2, gasUsed := 3 } : TransactionInfo)
          = txw.proof.transaction_info
      ∧ ({ siblings := [100] } : TransactionAccumulatorProof)
          = txw.proof.ledger_info_to_transaction_info_proof
      ∧ apiFix.context.db.latestEpochState = Except.ok les
      ∧ ([1, 2, 3] : ValidatorVerifier) = les.verifier :=
  account_proof_single_transaction_version apiFix AcceptType.bcs 7 none
    { state_proof := { leaf := some (1, 2), siblings := [3] },
      element_key := 11,
      element_hash := 1,
      transaction_proof := { siblings := [100] },
      transaction := { stateChangeHash := 1, eventRootHash := 2, gasUsed := 3 },
      transaction_index := 100,
      ledger_info_v0 :=
        { ledger_info :=
            { epoch := 7, version := 100, timestampUsecs := 999, nextEpochState := none },
          signatures := 0 },
      validator_verifier := [1, 2, 3] }
    liFix (by decide)

/-- C6 counterexample: with the account's state value absent at the resolved
version, `get_account_proof` fails with an `Internal` error, not with a not-found
outcome as the claim states. -/
theorem account_proof_absent_value_counterexample :
    StateApi.proof apiNoAccount AcceptType.bcs 7 none
      = Outcome.err (ApiError.internal "No state value from get_state_value_with_proof_by_version")
    ∧ StateApi.proof apiNoAccount AcceptType.bcs 7 none
      ≠ Outcome.err (ApiError.resourceNotFound 7 accountResourceStructTag 100 liFix) := by
  refine ⟨?_, ?_⟩ <;> decide

/-- C6 amended: for every `get_account_proof` request — whether the transaction
version is resolved from a requested block height (the block's last transaction
version) or, with no block height, the latest ledger version — when the target
account's state value is absent at that resolved version, the operation fails with
the `Internal` error `"No state value from get_state_value_with_proof_by_version"`
(the code classifies this absence as internal, not as a not-found outcome). -/
theorem account_proof_absent_value_internal (api : StateApi) (acc : AcceptType) (a : Address)
    (bh : Option Nat) (tx_version : Nat)
    (htx : (bh = none ∧ tx_version = api.context.ledgerInfo.ledger_version)
      ∨ (∃ hgt blk, bh = some hgt ∧ api.context.db.blockByHeight hgt = Except.ok blk
          ∧ tx_version = blk.last_version))
    (lis : LedgerInfoWithSignatures)
    (hlis : api.context.db.latestLedgerInfoWithSigs = Except.ok lis)
    (les : EpochState) (hles : api.context.db.latestEpochState = Except.ok les)
    (sproof : SparseMerkleProof)
    (hsv : api.context.db.stateValueWithProofByVersion
        (StateKey.resourceKey a accountResourceStructTag) tx_version
        = Except.ok (none, sproof)) :
    api.proof acc a bh
      = Outcome.err
          (ApiError.internal "No state value from get_state_value_with_proof_by_version") := by
  rcases htx with ⟨hbn, htxv⟩ | ⟨hgt, blk, hbs, hblk, htxv⟩
  · subst hbn
    subst htxv
    simp [StateApi.proof, Context.state_view, StateKey.resource, hlis, hles, hsv]
  · subst hbs
    subst htxv
    simp [StateApi.proof, Context.state_view, Context.get_block_by_height, StateKey.resource,
      hblk, hlis, hles, hsv]

/-- C6 amended witness: the amended statement evaluated at the fixture store with no
account state value, once with no block height (resolved version 100, the latest)
and once with block height 4 (resolved version 40, the block's last version). -/
theorem account_proof_absent_value_internal_witness :
    StateApi.proof apiNoAccount AcceptType.bcs 7 none
      = Outcome.err
          (ApiError.internal "No state value from get_state_value_with_proof_by_version")
    ∧ StateApi.proof apiNoAccount AcceptType.bcs 7 (some 4)
      = Outcome.err
          (ApiError.internal "No state value from get_state_value_with_proof_by_version") :=
  ⟨account_proof_absent_value_internal apiNoAccount AcceptType.bcs 7 none 100
      (Or.inl ⟨rfl, rfl⟩)
      { ledger_info :=
          { epoch := 7, version := 100, timestampUsecs := 999, nextEpochState := none },
        signatures := 0 } rfl
      { epoch := 7, verifier := [1, 2, 3] } rfl
      { leaf := none, siblings := [] } rfl,
   account_proof_absent_value_internal apiNoAccount AcceptType.bcs 7 (some 4) 40
      (Or.inr ⟨4, { last_version := 40 }, rfl, rfl, rfl⟩)
      { ledger_info :=
          { epoch := 7, version := 100, timestampUsecs := 999, nextEpochState := none },
        signatures := 0 } rfl
      { epoch := 7, verifier := [1, 2, 3] } rfl
      { leaf := none, siblings := [] } rfl⟩

/-- C7: when the store read succeeds but finds no value at the resolved, retained
version, each operation returns its domain-specific not-found outcome — resource,
module, or table-item not found — carrying the address/type/handle, key, and
resolved version (plus the ledger snapshot), never an `Internal` error. The
not-found constructors from the missing `response.rs` are modelled from the spec. -/
theorem key_absent_domain_not_found (api : StateApi) (acc : AcceptType) :
    (∀ a rt tag lv li v sv,
        api.ext.parseStructTag rt = Except.ok tag →
        Context.state_view api.context lv = Except.ok (li, v, sv) →
        api.ext.findResource sv.db sv.version a tag = Except.ok none →
        api.resource acc a rt lv = Outcome.err (ApiError.resourceNotFound a tag v li))
    ∧ (∀ a n lv li v sv,
        Context.state_view api.context lv = Except.ok (li, v, sv) →
        sv.get_state_value_bytes (StateKey.moduleKey a n) = Except.ok none →
        api.module acc a n lv = Outcome.err (ApiError.moduleNotFound a n v li))
    ∧ (∀ th req lv kt vt vmk rk li v sv,
        api.ext.parseMoveType req.key_type = Except.ok kt →
        api.ext.parseMoveType req.value_type = Except.ok vt →
        Context.state_view api.context lv = Except.ok (li, v, sv) →
        api.ext.tryIntoVmValue kt req.key = Except.ok vmk →
        api.ext.serializeVmKey vmk = some rk →
        sv.get_state_value_bytes (StateKey.tableItemKey th rk) = Except.ok none →
        api.table_item acc th req lv
          = Outcome.err (ApiError.tableItemNotFound th req.key v li)) := by
  refine ⟨?_, ?_, ?_⟩
  · intro a rt tag lv li v sv hp hres hfind
    simp [StateApi.resource, hp, hres, hfind]
  · intro a n lv li v sv hres hbytes
    simp [StateApi.module, hres, hbytes]
  · intro th req lv kt vt vmk rk li v sv hkt hvt hres hvm hser hbytes
    simp [StateApi.table_item, hkt, hvt, hres, hvm, hser, hbytes]

/-- C7 witness: at the fixture, an absent resource, module, and table item (address
and handle 5, where the store holds nothing) each produce their domain not-found
error with the resolved version 100 and the snapshot attached. -/
theorem key_absent_domain_not_found_witness :
    StateApi.resource apiFix AcceptType.bcs 5 "Account" none
      = Outcome.err (ApiError.resourceNotFound 5
          { address := 1, moduleName := "account", name := "Account" } 100 liFix)
    ∧ StateApi.module apiFix AcceptType.bcs 5 "m" none
      = Outcome.err (ApiError.moduleNotFound 5 "m" 100 liFix)
    ∧ StateApi.table_item apiFix AcceptType.bcs 5
        { key_type := 1, key := 1, value_type := 1 } none
      = Outcome.err (ApiError.tableItemNotFound 5 1 100 liFix) :=
  ⟨(key_absent_domain_not_found apiFix AcceptType.bcs).1 5 "Account"
      { address := 1, moduleName := "account", name := "Account" } none liFix 100
      { db := dbFix, version := 100 } rfl rfl rfl,
   (key_absent_domain_not_found apiFix AcceptType.bcs).2.1 5 "m" none liFix 100
      { db := dbFix, version := 100 } rfl rfl,
   (key_absent_domain_not_found apiFix AcceptType.bcs).2.2 5
      { key_type := 1, key := 1, value_type := 1 } none 1 1 1 [1] liFix 100
      { db := dbFix, version := 100 } rfl rfl rfl rfl rfl rfl⟩

/-- C8: when the store read succeeds but converting the fetched bytes to the typed
value fails, the decoded-format operation fails with an `Internal` error carrying
the decode failure — never with a not-found or value-absent outcome. -/
theorem decode_failure_after_read_internal (api : StateApi) :
    (∀ a rt tag lv li v sv bytes emsg,
        api.ext.parseStructTag rt = Except.ok tag →
        Context.state_view api.context lv = Except.ok (li, v, sv) →
        api.ext.findResource sv.db sv.version a tag = Except.ok (some bytes) →
        api.ext.tryIntoResource tag bytes = Except.error emsg →
        api.resource AcceptType.json a rt lv = Outcome.err (ApiError.internal emsg))
    ∧ (∀ a n lv li v sv bytes emsg,
        Context.state_view api.context lv = Except.ok (li, v, sv) →
        sv.get_state_value_bytes (StateKey.moduleKey a n) = Except.ok (some bytes) →
        api.ext.tryParseAbi bytes = Except.error emsg →
        api.module AcceptType.json a n lv = Outcome.err (ApiError.internal emsg))
    ∧ (∀ th req lv kt vt vmk rk li v sv bytes emsg,
        api.ext.parseMoveType req.key_type = Except.ok kt →
        api.ext.parseMoveType req.value_type = Except.ok vt →
        Context.state_view api.context lv = Except.ok (li, v, sv) →
        api.ext.tryIntoVmValue kt req.key = Except.ok vmk →
        api.ext.serializeVmKey vmk = some rk →
        sv.get_state_value_bytes (StateKey.tableItemKey th rk) = Except.ok (some bytes) →
        api.ext.tryIntoMoveValue vt bytes = Except.error emsg →
        api.table_item AcceptType.json th req lv = Outcome.err (ApiError.internal emsg)) := by
  refine ⟨?_, ?_, ?_⟩
  · intro a rt tag lv li v sv bytes emsg hp hres hfind hd
    simp [StateApi.resource, hp, hres, hfind, hd]
  · intro a n lv li v sv bytes emsg hres hbytes hd
    simp [StateApi.module, hres, hbytes, hd]
  · intro th req lv kt vt vmk rk li v sv bytes emsg hkt hvt hres hvm hser hbytes hd
    simp [StateApi.table_item, hkt, hvt, hres, hvm, hser, hbytes, hd]

/-- C8 witness: at the fixture, address/handle 9 yields stored bytes `[9]` that the
decoder rejects; the JSON variants of all three operations report `Internal`. -/
theorem decode_failure_after_read_internal_witness :
    StateApi.resource apiFix AcceptType.json 9 "Account" none
      = Outcome.err (ApiError.internal "Failed to deserialize resource data retrieved from DB")
    ∧ StateApi.module apiFix AcceptType.json 9 "m" none
      = Outcome.err
          (ApiError.internal "Failed to parse move module ABI from bytes retrieved from storage")
    ∧ StateApi.table_item apiFix AcceptType.json 9
        { key_type := 1, key := 1, value_type := 1 } none
      = Outcome.err (ApiError.internal "Failed to deserialize table item retrieved from DB") :=
  ⟨(decode_failure_after_read_internal apiFix).1 9 "Account"
      { address := 1, moduleName := "account", name := "Account" } none liFix 100
      { db := dbFix, version := 100 } [9]
      "Failed to deserialize resource data retrieved from DB" rfl rfl rfl rfl,
   (decode_failure_after_read_internal apiFix).2.1 9 "m" none liFix 100
      { db := dbFix, version := 100 } [9]
      "Failed to parse move module ABI from bytes retrieved from storage" rfl rfl rfl,
   (decode_failure_after_read_internal apiFix).2.2 9
      { key_type := 1, key := 1, value_type := 1 } none 1 1 1 [1] liFix 100
      { db := dbFix, version := 100 } [9]
      "Failed to deserialize table item retrieved from DB" rfl rfl rfl rfl rfl rfl rfl⟩

/-- C9: for the same request, the decoded (JSON) response of `get_resource` and
`get_table_item` is exactly the decode of the byte sequence the raw (BCS) response
returns: both branches consume the single byte value fetched once from the store,
so `decode(raw_bytes) = decoded_value`. -/
theorem decoded_equals_decode_of_raw (api : StateApi) :
    (∀ a rt lv tag v b liJ liB,
        api.ext.parseStructTag rt = Except.ok tag →
        api.resource AcceptType.json a rt lv = Outcome.ok (BasicResponse.json v liJ) →
        api.resource AcceptType.bcs a rt lv = Outcome.ok (BasicResponse.bcs b liB) →
        api.ext.tryIntoResource tag b = Except.ok v
        ∧ ∃ li0 ver sv, Context.state_view api.context lv = Except.ok (li0, ver, sv)
            ∧ api.ext.findResource sv.db sv.version a tag = Except.ok (some b))
    ∧ (∀ th req lv vt v b liJ liB,
        api.ext.parseMoveType req.value_type = Except.ok vt →
        api.table_item AcceptType.json th req lv = Outcome.ok (BasicResponse.json v liJ) →
        api.table_item AcceptType.bcs th req lv = Outcome.ok (BasicResponse.bcs b liB) →
        api.ext.tryIntoMoveValue vt b = Except.ok v
        ∧ ∃ rk li0 ver sv, Context.state_view api.context lv = Except.ok (li0, ver, sv)
            ∧ sv.get_state_value_bytes (StateKey.tableItemKey th rk)
                = Except.ok (some b)) := by
  constructor
  · intro a rt lv tag v b liJ liB hp hj hb
    cases hres : Context.state_view api.context lv with
    | error e => simp [StateApi.resource, hp, hres] at hj
    | ok triple =>
      obtain ⟨li0, ver, sv⟩ := triple
      cases hf : api.ext.findResource sv.db sv.version a tag with
      | error e => simp [StateApi.resource, hp, hres, hf] at hj
      | ok ob =>
        cases ob with
        | none => simp [StateApi.resource, hp, hres, hf] at hj
        | some bytes =>
          cases hd : api.ext.tryIntoResource tag bytes with
          | error e => simp [StateApi.resource, hp, hres, hf, hd] at hj
          | ok r =>
            simp only [StateApi.resource, hp, hres, hf, hd] at hj hb
            injection hj with hj1
            injection hj1 with hv hlj
            injection hb with hb1
            injection hb1 with hbb hlb
            subst hv
            subst hbb
            exact ⟨hd, li0, ver, sv, rfl, hf⟩
  · intro th req lv vt v b liJ liB hvt hj hb
    cases hkt : api.ext.parseMoveType req.key_type with
    | error e => simp [StateApi.table_item, hkt] at hj
    | ok kt =>
      cases hres : Context.state_view api.context lv with
      | error e => simp [StateApi.table_item, hkt, hvt, hres] at hj
      | ok triple =>
        obtain ⟨li0, ver, sv⟩ := triple
        cases hvm : api.ext.tryIntoVmValue kt req.key with
        | error e => simp [StateApi.table_item, hkt, hvt, hres, hvm] at hj
        | ok vmk =>
          cases hser : api.ext.serializeVmKey vmk with
          | none => simp [StateApi.table_item, hkt, hvt, hres, hvm, hser] at hj
          | some rk =>
            cases hbytes : sv.get_state_value_bytes (StateKey.tableItemKey th rk) with
            | error e => simp [StateApi.table_item, hkt, hvt, hres, hvm, hser, hbytes] at hj
            | ok ob =>
              cases ob with
              | none => simp [StateApi.table_item, hkt, hvt, hres, hvm, hser, hbytes] at hj
              | some bytes =>
                cases hd : api.ext.tryIntoMoveValue vt bytes with
                | error e =>
                  simp [StateApi.table_item, hkt, hvt, hres, hvm, hser, hbytes, hd] at hj
                | ok r =>
                  simp only [StateApi.table_item, hkt, hvt, hres, hvm, hser, hbytes, hd]
                    at hj hb
                  injection hj with hj1
                  injection hj1 with hv hlj
                  injection hb with hb1
                  injection hb1 with hbb hlb
                  subst hv
                  subst hbb
                  exact ⟨hd, rk, li0, ver, sv, rfl, hbytes⟩

/-- C9 witness: at the fixture, address and handle 7 hold bytes `[1, 2]`; the JSON
runs decode them to `3` (the fixture decoder sums bytes), the BCS runs return the
same bytes, and the theorem links them. -/
theorem decoded_equals_decode_of_raw_witness :
    (apiFix.ext.tryIntoResource
        { address := 1, moduleName := "account", name := "Account" } [1, 2] = Except.ok 3
      ∧ ∃ li0 ver sv, Context.state_view apiFix.context none = Except.ok (li0, ver, sv)
          ∧ apiFix.ext.findResource sv.db sv.version 7
              { address := 1, moduleName := "account", name := "Account" }
              = Except.ok (some [1, 2]))
    ∧ (apiFix.ext.tryIntoMoveValue 1 [1, 2] = Except.ok 3
      ∧ ∃ rk li0 ver sv, Context.state_view apiFix.context none = Except.ok (li0, ver, sv)
          ∧ sv.get_state_value_bytes (StateKey.tableItemKey 7 rk)
              = Except.ok (some [1, 2])) :=
  ⟨(decoded_equals_decode_of_raw apiFix).1 7 "Account" none
      { address := 1, moduleName := "account", name := "Account" } 3 [1, 2] liFix liFix
      rfl (by decide) (by decide),
   (decoded_equals_decode_of_raw apiFix).2 7 { key_type := 1, key := 1, value_type := 1 } none
      1 3 [1, 2] liFix liFix rfl (by decide) (by decide)⟩

/-- C10: the epoch-change fetch range start is computed by the wrapping `u64`
subtraction `epoch_number - 2` — equal to the mathematical `e - 2` only for
`2 ≤ e < 2 ^ 64`; for `e ∈ {0, 1}` it underflows to a value above `e`, so the
store is asked for a range that is not the specified `[e-2, e)` — as shown by a
probe store that records the requested range (both for an explicit epoch number and
for the store's latest epoch when the parameter is absent). -/
theorem epoch_fetch_range_underflows_below_two :
    (∀ e, 2 ≤ e → e < 2 ^ 64 → u64sub e 2 = e - 2)
    ∧ (∀ e, e < 2 → e < u64sub e 2)
    ∧ StateApi.epoch_change_proof apiProbe AcceptType.bcs (some 0)
        = Outcome.err (ApiError.internal ("start=" ++ toString (2 ^ 64 - 2) ++ " end=0"))
    ∧ StateApi.epoch_change_proof apiProbe AcceptType.bcs (some 1)
        = Outcome.err (ApiError.internal ("start=" ++ toString (2 ^ 64 - 1) ++ " end=1"))
    ∧ StateApi.epoch_change_proof apiProbe AcceptType.bcs (some 5)
        = Outcome.err (ApiError.internal "start=3 end=5")
    ∧ StateApi.epoch_change_proof apiProbeLatestOne AcceptType.bcs none
        = Outcome.err (ApiError.internal ("start=" ++ toString (2 ^ 64 - 1) ++ " end=1")) := by
  refine ⟨fun e h2 hW => u64sub_eq_sub e 2 h2 hW, ?_, ?_, ?_, ?_, ?_⟩
  · intro e he
    interval_cases e <;> decide
  all_goals decide

/-- C10 witness: the arithmetic conjuncts of the theorem applied at `e = 5` and
`e = 0`. -/
theorem epoch_fetch_range_underflows_below_two_witness :
    u64sub 5 2 = 3 ∧ 0 < u64sub 0 2 :=
  ⟨epoch_fetch_range_underflows_below_two.1 5 (by decide) (by norm_num),
   epoch_fetch_range_underflows_below_two.2.1 0 (by decide)⟩
